import Mathlib

/-!
Verification development for the SRCNotifications bot (src/src.py).

The Python program polls speedrun.com for newly submitted runs of monitored
games and notifies Discord servers.  The definitions below are a shallow
embedding of its data model and the functions the claims concern:

* fetch_json             (src.py lines 403-417)
* get_player_name        (src.py lines 419-430)
* GameVerificationSystem.search_games with the game-search cache
                         (src.py lines 507-541, 219-241)
* DatabaseManager.get_all_monitored_games, get_servers_monitoring_game
                         (src.py lines 310-336)
* notify_new_run         (src.py lines 568-635)
* check_new_runs         (src.py lines 638-670)
* the interval command   (src.py lines 741-756)

Database rows are modelled as Lean structures, tables as lists of rows,
and network I/O as oracle functions passed in as parameters (the value the
Python coroutine would have received from aiohttp).  Discord delivery is an
oracle returning one of three outcomes per send attempt, mirroring the
try/except around channel resolution and channel.send.
-/

/-- Python str.lower, applied characterwise. -/
def pyLowerS (s : String) : String :=
  String.mk (s.data.map Char.toLower)

/-- Python substring containment: needle in hay. -/
def strIn (needle hay : String) : Bool :=
  hay.data.tails.any (fun t => needle.data.isPrefixOf t)

/-- One entry of the upstream game-search response: data[i].id and
data[i].names.international as used by search_games. -/
structure GameRec where
  id : String
  name : String
deriving DecidableEq

/-- One match dict built by search_games (src.py lines 524-533); the fields
exact_match and partial_match are spelled exactMatch and subMatch here. -/
structure MatchRec where
  id : String
  name : String
  exactMatch : Bool
  subMatch : Bool
deriving DecidableEq

/-- Builds the match dict of search_games: exact_match is case-insensitive
equality of the international name with the query, partial_match is
case-insensitive containment of the query in the international name. -/
def mkMatch (query : String) (g : GameRec) : MatchRec :=
  { id := g.id
    name := g.name
    exactMatch := decide (pyLowerS g.name = pyLowerS query)
    subMatch := strIn (pyLowerS query) (pyLowerS g.name) }

/-- The Python stable sort by key (not exact_match, not partial_match)
(src.py line 540).  The key takes four values; a stable sort by it is the
concatenation of the four key classes in ascending key order, each class
keeping the original order. -/
def pySortMatches (l : List MatchRec) : List MatchRec :=
  l.filter (fun m => m.exactMatch && m.subMatch) ++
  l.filter (fun m => m.exactMatch && !m.subMatch) ++
  l.filter (fun m => !m.exactMatch && m.subMatch) ++
  l.filter (fun m => !m.exactMatch && !m.subMatch)

/-- The game_search_cache table: search_term (lower-cased) to match list. -/
def Cache : Type := List (String × List MatchRec)

instance : DecidableEq Cache := by
  unfold Cache
  infer_instance

/-- DatabaseManager.search_games_cache: SELECT matches WHERE search_term =
term.lower(); the caller passes the key already lower-cased here. -/
def cacheLookup (c : Cache) (key : String) : Option (List MatchRec) :=
  (c.find? (fun p => p.1 == key)).map (fun p => p.2)

/-- DatabaseManager.cache_game_search: INSERT OR REPLACE keyed by the
lower-cased term. -/
def cacheInsert (c : Cache) (key : String) (v : List MatchRec) : Cache :=
  (key, v) :: c.filter (fun p => p.1 != key)

/-- Result of one search_games call: the returned matches, the cache state
afterwards, and how many upstream search requests were issued. -/
structure SearchRes where
  results : List MatchRec
  cache : Cache
  fetches : Nat
deriving DecidableEq

/-- The cache-miss path of search_games: query the API (the upstream oracle
yields the parsed data list, or none when fetch_json failed or the body had
no data field), build the match dicts, cache them UNSORTED, then sort and
truncate.  A missing response returns the empty list without caching. -/
def searchNetwork (upstream : String → Option (List GameRec)) (cache : Cache)
    (gameName : String) (limit : Nat) (key : String) : SearchRes :=
  match upstream gameName with
  | none => ⟨[], cache, 1⟩
  | some games =>
    let ms := games.map (mkMatch gameName)
    ⟨(pySortMatches ms).take limit, cacheInsert cache key ms, 1⟩

/-- GameVerificationSystem.search_games (src.py lines 507-541): a cached
NONEMPTY match list is returned truncated, without sorting and without any
upstream request; a cached empty list is falsy in Python and falls through
to the network path. -/
def search_games (upstream : String → Option (List GameRec)) (cache : Cache)
    (gameName : String) (limit : Nat) : SearchRes :=
  let key := pyLowerS gameName
  match cacheLookup cache key with
  | some l =>
    if l.isEmpty then searchNetwork upstream cache gameName limit key
    else ⟨l.take limit, cache, 0⟩
  | none => searchNetwork upstream cache gameName limit key

/-- Outcome of one HTTP GET as seen by fetch_json: a timeout, any other
transport error, or a response with a status code and a body that either
parsed as JSON (some) or raised during parsing (none). -/
inductive HttpOutcome (α : Type) where
  | tmout : HttpOutcome α
  | transportError : HttpOutcome α
  | response : Nat → Option α → HttpOutcome α
deriving DecidableEq

/-- fetch_json (src.py lines 403-417): every failure path is caught and
returns None; only a 200 response with a parseable body yields data.  The
function is total, embedding the fact that fetch_json never raises. -/
def fetch_json {α : Type} : HttpOutcome α → Option α
  | .tmout => none
  | .transportError => none
  | .response status body => if status = 200 then body else none

/-- A row of the servers table: guild_id, guild_name, channel_id, role_id,
interval, enabled (src.py lines 84-95). -/
structure ServerRow where
  guildId : String
  guildName : String
  channelId : Option String
  roleId : Option String
  interval : Int
  enabled : Bool
deriving DecidableEq

/-- A row of the server_games junction table: guild_id, game_name (the raw
name the operator typed), game_id (null until verified), custom_name. -/
structure SGRow where
  guildId : String
  gameName : String
  gameId : Option String
  customName : Option String
deriving DecidableEq

/-- A row of the games table restricted to the columns read by the queries
under study: game_id and the verified game_name. -/
structure GameRow where
  gameId : String
  gameName : String
deriving DecidableEq

/-- The persistent configuration tables (the seen_runs table is threaded
separately as a list of run ids, since the poll cycle mutates only it). -/
structure Config where
  servers : List ServerRow
  serverGames : List SGRow
  games : List GameRow
deriving DecidableEq

/-- Helper for SQL DISTINCT: drops later duplicates, keeping the first
occurrence of each element. -/
def distinctAux {α : Type} [DecidableEq α] : List α → List α → List α
  | [], _ => []
  | a :: l, emitted =>
    if a ∈ emitted then distinctAux l emitted
    else a :: distinctAux l (a :: emitted)

/-- SQL DISTINCT over a row list. -/
def distinctFirst {α : Type} [DecidableEq α] (l : List α) : List α :=
  distinctAux l []

/-- The LEFT JOIN of server_games with games: the verified game_name for a
game row with matching game_id, if any. -/
def verifiedName (cfg : Config) : Option String → Option String
  | none => none
  | some gid => (cfg.games.find? (fun g => g.gameId == gid)).map (fun g => g.gameName)

/-- The SELECT DISTINCT of get_all_monitored_games (src.py lines 313-318):
triples (sg.game_name, sg.game_id, verified game_name) of rows whose guild
is enabled.  Note the WHERE clause checks enabled only, not channel_id. -/
def monitoredTriples (cfg : Config) : List (String × Option String × Option String) :=
  let enabledIds := (cfg.servers.filter (fun s => s.enabled)).map (fun s => s.guildId)
  let rows := cfg.serverGames.filter (fun sg => decide (sg.guildId ∈ enabledIds))
  distinctFirst (rows.map (fun sg => (sg.gameName, sg.gameId, verifiedName cfg sg.gameId)))

/-- Python: row.verified_name or row.game_name, with or-truthiness on
strings (an empty verified name falls back to the raw name). -/
def pyOr (a : Option String) (b : String) : String :=
  match a with
  | some s => if s = "" then b else s
  | none => b

/-- DatabaseManager.get_all_monitored_games (src.py lines 310-326): the
python loop keeps rows whose game_id is truthy (non-null and nonempty) and
pairs the id with the verified-or-raw display name. -/
def get_all_monitored_games (cfg : Config) : List (String × String) :=
  (monitoredTriples cfg).filterMap (fun t =>
    match t.2.1 with
    | some gid => if gid = "" then none else some (gid, pyOr t.2.2 t.1)
    | none => none)

/-- Modelled from the spec: the poll-target computation of spec section 4.5
step 1, the union over destinations in listAllEnabledWithChannel (enabled
AND with a bound notification channel) of their resolved game ids.  Kept
separately from get_all_monitored_games so the two can be compared. -/
def spec_targetGames (cfg : Config) : List String :=
  ((cfg.servers.filter (fun s => s.enabled && s.channelId.isSome)).map (fun s =>
    (cfg.serverGames.filter (fun sg => sg.guildId == s.guildId)).filterMap
      (fun sg => sg.gameId))).foldr (fun l acc => l ++ acc) []

/-- Decidable restatement of membership in the code poll-target set: gid is
nonempty and some ENABLED server (channel bound or not) has a server_games
row resolving to gid. -/
def enabledMonitors (cfg : Config) (gid : String) : Bool :=
  decide (gid ≠ "") && cfg.serverGames.any (fun sg =>
    (sg.gameId == some gid) && cfg.servers.any (fun s => s.enabled && (s.guildId == sg.guildId)))

/-- A players list entry as consumed by get_player_name: the empty dict
(falsy in Python), a guest entry with optional name, a registered-user
entry carrying an id, or anything else with an optional name field. -/
inductive PlayerRec where
  | empty : PlayerRec
  | guest : Option String → PlayerRec
  | userId : String → PlayerRec
  | fallback : Option String → PlayerRec
deriving DecidableEq

/-- get_player_name (src.py lines 419-430).  The lookup oracle is the
result of the users/{id} request: some name when the fetch succeeded and
yielded an international name (or the id default), none when fetch_json
returned None or the body had no data field, in which case the raw id is
returned. -/
def get_player_name (lookup : String → Option String) : PlayerRec → String
  | .empty => "Unknown"
  | .guest name => name.getD "Unknown"
  | .userId i =>
    match lookup i with
    | some nm => nm
    | none => i
  | .fallback name => name.getD "Unknown"

/-- A run record restricted to the fields the claims concern: the id and
the players list (none models an absent players field, for which the code
substitutes the default [{}]). -/
structure Run where
  id : Option String
  players : Option (List PlayerRec)
deriving DecidableEq

/-- full_run.get(players, [{}])[0]: the first players entry, the empty
dict when the field is absent, and none when the list subscript raises
IndexError on a present-but-empty list. -/
def firstPlayer (run : Run) : Option PlayerRec :=
  match run.players with
  | none => some .empty
  | some [] => none
  | some (p :: _) => some p

/-- r.get(id, ) with empty-string default, as used by the cycle filter. -/
def pyRunId (run : Run) : String :=
  run.id.getD ""

/-- Outcome of one delivery attempt to one server row: bot.get_channel
returned None (or int() raised), channel.send raised, or the send
succeeded. -/
inductive Delivery where
  | noChannel : Delivery
  | sendFail : Delivery
  | success : Delivery
deriving DecidableEq

/-- One row of the get_servers_monitoring_game result: the JOIN of servers
with server_games produces one row per MATCHING server_games row, so a
server monitoring the same game id under two raw names appears twice. -/
structure JoinRow where
  guildId : String
  sgName : String
deriving DecidableEq

/-- DatabaseManager.get_servers_monitoring_game (src.py lines 328-336):
servers JOIN server_games on guild_id WHERE sg.game_id = gameId AND
s.enabled AND s.channel_id IS NOT NULL. -/
def serversMonitoring (cfg : Config) (gameId : String) : List JoinRow :=
  (cfg.servers.map (fun s =>
    if s.enabled && s.channelId.isSome then
      (cfg.serverGames.filter (fun sg =>
        decide (sg.guildId = s.guildId ∧ sg.gameId = some gameId))).map
        (fun sg => ⟨s.guildId, sg.gameName⟩)
    else [])).foldr (fun l acc => l ++ acc) []

/-- The notification loop over the server rows (src.py lines 616-627):
each attempt is isolated; only successful sends are counted.  Returns the
guild ids successfully notified, in order, duplicates preserved. -/
def doDeliver : List JoinRow → Nat → (Nat → Delivery) → List String
  | [], _, _ => []
  | r :: rs, i, d =>
    match d i with
    | .success => r.guildId :: doDeliver rs (i + 1) d
    | _ => doDeliver rs (i + 1) d

/-- add_seen_run: INSERT OR IGNORE into seen_runs. -/
def insertSeen (rid : String) (seen : List String) : List String :=
  if rid ∈ seen then seen else rid :: seen

/-- Result of one notify_new_run call: the seen set afterwards, the guild
ids that received the message, and the resolved runner display name when
the call got that far. -/
structure NotifyOut where
  seen : List String
  sent : List String
  runner : Option String
deriving DecidableEq

/-- notify_new_run (src.py lines 568-635): abort on a falsy or already
seen run id, abort when no server monitors the game, resolve the runner
from the FIRST players entry (an IndexError on an empty players list is
swallowed by the outer except, leaving the state unchanged), deliver to
every matching row, and mark the run seen iff at least one send succeeded. -/
def notifyRun (cfg : Config) (seen : List String) (run : Run) (gameId : String)
    (lookup : String → Option String) (deliver : Nat → Delivery) : NotifyOut :=
  match run.id with
  | none => ⟨seen, [], none⟩
  | some rid =>
    if rid = "" ∨ rid ∈ seen then ⟨seen, [], none⟩
    else
      let rows := serversMonitoring cfg gameId
      if rows.isEmpty then ⟨seen, [], none⟩
      else
        match firstPlayer run with
        | none => ⟨seen, [], none⟩
        | some p =>
          let runner := get_player_name lookup p
          let sent := doDeliver rows 0 deliver
          ⟨if sent.isEmpty then seen else insertSeen rid seen, sent, some runner⟩

/-- Accumulated state of one check_new_runs cycle: the seen set, the game
ids for which a runs query was issued (in order, duplicates preserved),
and the delivery log as (run id, guild id) events. -/
structure CycleState where
  seen : List String
  fetched : List String
  log : List (String × String)
deriving DecidableEq

/-- The inner loop of check_new_runs over the filtered new runs of one
game (src.py lines 665-666): each run is handed to notify_new_run with the
current seen set; successful sends are logged tagged with the run id. -/
def processRuns (cfg : Config) (gameId : String) (lookup : String → Option String)
    (deliver : String → Nat → Delivery) : List Run → CycleState → CycleState
  | [], st => st
  | r :: rs, st =>
    let out := notifyRun cfg st.seen r gameId lookup (deliver (pyRunId r))
    processRuns cfg gameId lookup deliver rs
      { st with
        seen := out.seen
        log := st.log ++ out.sent.map (fun g => (pyRunId r, g)) }

/-- One iteration of the per-game loop of check_new_runs (src.py lines
651-668): the runs query is always issued; a missing response skips the
game; otherwise the response is filtered against the seen set BEFORE the
notify loop runs. -/
def processGame (cfg : Config) (lookup : String → Option String)
    (runsFor : String → Option (List Run)) (deliver : String → Nat → Delivery)
    (st : CycleState) (entry : String × String) : CycleState :=
  let st1 : CycleState := { st with fetched := st.fetched ++ [entry.1] }
  match runsFor entry.1 with
  | none => st1
  | some runs =>
    let newRuns := runs.filter (fun r => !(decide (pyRunId r ∈ st1.seen)))
    processRuns cfg entry.1 lookup deliver newRuns st1

/-- check_new_runs (src.py lines 638-670): iterate the monitored-games
list; with an empty list the cycle does nothing (the early return and the
empty fold agree). -/
def check_new_runs (cfg : Config) (seen : List String)
    (runsFor : String → Option (List Run)) (lookup : String → Option String)
    (deliver : String → Nat → Delivery) : CycleState :=
  (get_all_monitored_games cfg).foldl (processGame cfg lookup runsFor deliver)
    ⟨seen, [], []⟩

/-- The I/O environment of one poll cycle: the runs-by-game responses, the
user-detail lookups, and the delivery outcomes keyed by run id and row
index. -/
structure Oracle where
  runsFor : String → Option (List Run)
  lookup : String → Option String
  deliver : String → Nat → Delivery

/-- A sequence of poll cycles driven by the 60-second task loop, each with
its own I/O environment; returns the final seen set and the concatenated
delivery log. -/
def runCycles (cfg : Config) (seen : List String) :
    List Oracle → List String × List (String × String)
  | [] => (seen, [])
  | o :: os =>
    let st := check_new_runs cfg seen o.runsFor o.lookup o.deliver
    let rest := runCycles cfg st.seen os
    (rest.1, st.log ++ rest.2)

/-- True when no delivery event in the log concerns the given run id. -/
def noEventsFor (log : List (String × String)) (rid : String) : Bool :=
  log.all (fun ev => ev.1 != rid)

/-- The rejection message of the interval command (src.py line 746). -/
def rejectIntervalMsg : String := "❌ Interval must be at least 30 seconds"

/-- The interval command (src.py lines 741-756): below 30 it replies with
the rejection message and touches nothing; otherwise it stores the value
through update_server (SQL UPDATE on the matching guild row). -/
def interval_cmd (cfg : Config) (guildId : String) (seconds : Int) : Config × String :=
  if seconds < 30 then (cfg, rejectIntervalMsg)
  else
    ({ cfg with
       servers := cfg.servers.map (fun s =>
         if s.guildId = guildId then { s with interval := seconds } else s) },
     "✅ Interval Set")

/-- C9: fetch_json returns the parsed body exactly on a 200 response whose
body parsed; a non-200 status, a timeout, and any transport or parse error
all yield none.  That fetch_json never raises is embedded by its totality:
every HttpOutcome maps to a plain Option value. -/
theorem c9_fetch_json_total (α : Type) (o : HttpOutcome α) (j : α) :
    fetch_json o = some j ↔ o = HttpOutcome.response 200 (some j) := by
  cases o with
  | tmout => simp [fetch_json]
  | transportError => simp [fetch_json]
  | response status body =>
    by_cases h : status = 200
    · subst h
      simp [fetch_json]
    · simp [fetch_json, h]

/-- C8: an interval below 30 seconds is rejected with the user-visible
message and the configuration is unchanged; a value of 30 or more is
stored as the interval of the addressed guild row. -/
theorem c8_interval_floor (cfg : Config) (guildId : String) (seconds : Int)
    (s : ServerRow) :
    (seconds < 30 → interval_cmd cfg guildId seconds = (cfg, rejectIntervalMsg))
    ∧ (30 ≤ seconds → s ∈ (interval_cmd cfg guildId seconds).1.servers →
        s.guildId = guildId → s.interval = seconds) := by
  constructor
  · intro h
    simp [interval_cmd, h]
  · intro h hs hg
    have hnl : ¬ seconds < 30 := not_lt.mpr h
    simp only [interval_cmd, if_neg hnl] at hs
    rcases List.mem_map.mp hs with ⟨s0, _, heq⟩
    by_cases h0 : s0.guildId = guildId
    · rw [if_pos h0] at heq
      rw [← heq]
    · rw [if_neg h0] at heq
      rw [← heq] at hg
      exact absurd hg h0

/-- Case analysis of notify_new_run: either one of the abort paths fired,
leaving the seen set untouched with nothing sent, or the call reached the
delivery loop with a valid unseen run id and a first players entry. -/
theorem notifyRun_cases (cfg : Config) (seen : List String) (run : Run)
    (gameId : String) (lookup : String → Option String) (deliver : Nat → Delivery) :
    notifyRun cfg seen run gameId lookup deliver = ⟨seen, [], none⟩
    ∨ ∃ rid p, run.id = some rid ∧ rid ≠ "" ∧ rid ∉ seen ∧ firstPlayer run = some p
        ∧ (serversMonitoring cfg gameId).isEmpty = false
        ∧ notifyRun cfg seen run gameId lookup deliver =
            ⟨if (doDeliver (serversMonitoring cfg gameId) 0 deliver).isEmpty then seen
              else insertSeen rid seen,
             doDeliver (serversMonitoring cfg gameId) 0 deliver,
             some (get_player_name lookup p)⟩ := by
  unfold notifyRun
  cases hid : run.id with
  | none => left; rfl
  | some rid =>
    dsimp only
    by_cases hg : rid = "" ∨ rid ∈ seen
    · left
      rw [if_pos hg]
    · rw [if_neg hg]
      push_neg at hg
      by_cases hrows : (serversMonitoring cfg gameId).isEmpty = true
      · left
        rw [if_pos hrows]
      · rw [if_neg hrows]
        cases hfp : firstPlayer run with
        | none => left; rfl
        | some p =>
          right
          dsimp only
          exact ⟨rid, p, rfl, hg.1, hg.2, rfl, Bool.eq_false_iff.mpr hrows, rfl⟩

/-- insertSeen always contains the inserted id. -/
theorem mem_insertSeen (rid : String) (seen : List String) : rid ∈ insertSeen rid seen := by
  unfold insertSeen
  split
  · assumption
  · exact List.mem_cons_self rid seen

/-- insertSeen keeps every previous element. -/
theorem insertSeen_keeps (rid x : String) (seen : List String) (h : x ∈ seen) :
    x ∈ insertSeen rid seen := by
  unfold insertSeen
  split
  · exact h
  · exact List.mem_cons_of_mem rid h

/-- C1: for a run with a valid, not-yet-seen id, notify_new_run inserts
the id into the seen registry iff at least one delivery succeeded; with no
subscribed destination or with every delivery failing the registry is left
unchanged. -/
theorem c1_mark_seen_iff (cfg : Config) (seen : List String) (run : Run)
    (gameId : String) (lookup : String → Option String) (deliver : Nat → Delivery)
    (rid : String) (hid : run.id = some rid) (hne : rid ≠ "") (hun : rid ∉ seen) :
    (rid ∈ (notifyRun cfg seen run gameId lookup deliver).seen
        ↔ (notifyRun cfg seen run gameId lookup deliver).sent ≠ [])
    ∧ ((notifyRun cfg seen run gameId lookup deliver).sent = [] →
        (notifyRun cfg seen run gameId lookup deliver).seen = seen) := by
  rcases notifyRun_cases cfg seen run gameId lookup deliver with h | ⟨rid2, p, hid2, -, -, -, -, h⟩
  · rw [h]
    constructor
    · simp [hun]
    · intro _
      rfl
  · have hr : rid2 = rid := by
      rw [hid] at hid2
      exact (Option.some_injective _ hid2).symm
    rw [hr] at h
    rw [h]
    dsimp only
    by_cases hs : (doDeliver (serversMonitoring cfg gameId) 0 deliver).isEmpty = true
    · have hnil : doDeliver (serversMonitoring cfg gameId) 0 deliver = [] :=
        List.isEmpty_iff.mp hs
      rw [if_pos hs]
      constructor
      · simp [hun, hnil]
      · intro _
        rfl
    · have hne2 : doDeliver (serversMonitoring cfg gameId) 0 deliver ≠ [] := by
        intro hx
        rw [hx] at hs
        exact hs rfl
      rw [if_neg hs]
      constructor
      · exact iff_of_true (mem_insertSeen rid seen) hne2
      · intro hx
        exact absurd hx hne2

/-- A one-server configuration used by the witnesses: guild g1 is enabled,
has a bound channel, and monitors the resolved game c1. -/
def cfgW : Config :=
  ⟨[⟨"g1", "G", some "ch1", none, 60, true⟩],
   [⟨"g1", "celeste", some "c1", none⟩],
   [⟨"c1", "Celeste"⟩]⟩

/-- A user-detail oracle with every lookup failing. -/
def lookupNone : String → Option String := fun _ => none

/-- A delivery oracle with every send succeeding. -/
def deliverOK : Nat → Delivery := fun _ => Delivery.success

/-- A run record with one guest player, used by the witnesses. -/
def runW : Run := ⟨some "r1", some [PlayerRec.guest (some "bob")]⟩

/-- Witness for C8 at a concrete configuration: 10 seconds is rejected
without a state change, and after setting 45 seconds the guild row stores
45. -/
theorem c8_witness :
    interval_cmd cfgW "g1" 10 = (cfgW, rejectIntervalMsg)
    ∧ (ServerRow.mk "g1" "G" (some "ch1") none 45 true).interval = 45 :=
  ⟨(c8_interval_floor cfgW "g1" 10 (ServerRow.mk "g1" "G" (some "ch1") none 45 true)).1
      (by decide),
   (c8_interval_floor cfgW "g1" 45 (ServerRow.mk "g1" "G" (some "ch1") none 45 true)).2
      (by decide) (by decide) rfl⟩

/-- Witness for C1 at a concrete input: with one subscribed destination and
a successful send, run r1 lands in the registry exactly because a delivery
succeeded. -/
theorem c1_witness :
    "r1" ∈ (notifyRun cfgW [] runW "c1" lookupNone deliverOK).seen
      ↔ (notifyRun cfgW [] runW "c1" lookupNone deliverOK).sent ≠ [] :=
  (c1_mark_seen_iff cfgW [] runW "c1" lookupNone deliverOK "r1" rfl (by decide)
    (by decide)).1

/-- C10: the notification consumes only the FIRST entry of the players
list (the whole output is unchanged when co-runners are dropped); an
absent players field renders the runner as Unknown via the default empty
dict; a present-but-empty players list raises IndexError, which the outer
except swallows, so nothing is sent and the run is not marked seen. -/
theorem c10_first_player (cfg : Config) (seen : List String) (gameId : String)
    (lookup : String → Option String) (deliver : Nat → Delivery) (rid : String)
    (p : PlayerRec) (rest : List PlayerRec)
    (hne : rid ≠ "") (hun : rid ∉ seen)
    (hrows : (serversMonitoring cfg gameId).isEmpty = false) :
    notifyRun cfg seen ⟨some rid, some (p :: rest)⟩ gameId lookup deliver
      = notifyRun cfg seen ⟨some rid, some [p]⟩ gameId lookup deliver
    ∧ (notifyRun cfg seen ⟨some rid, none⟩ gameId lookup deliver).runner = some "Unknown"
    ∧ notifyRun cfg seen ⟨some rid, some []⟩ gameId lookup deliver = ⟨seen, [], none⟩ := by
  have hg : ¬ (rid = "" ∨ rid ∈ seen) := by
    rintro (h | h)
    · exact hne h
    · exact hun h
  have hrows2 : ¬ (serversMonitoring cfg gameId).isEmpty = true := by
    rw [hrows]
    exact Bool.false_ne_true
  refine ⟨rfl, ?_, ?_⟩
  · unfold notifyRun
    dsimp only
    rw [if_neg hg, if_neg hrows2]
    rfl
  · unfold notifyRun
    dsimp only
    rw [if_neg hg, if_neg hrows2]
    rfl

/-- Witness for C10 at a concrete input: a two-player run notifies the
same way as its one-player truncation, a run without players renders
Unknown, and a run with an empty players list changes nothing. -/
theorem c10_witness :
    notifyRun cfgW [] ⟨some "r1", some [PlayerRec.guest (some "alice"), PlayerRec.guest (some "bob")]⟩
        "c1" lookupNone deliverOK
      = notifyRun cfgW [] ⟨some "r1", some [PlayerRec.guest (some "alice")]⟩ "c1" lookupNone deliverOK
    ∧ (notifyRun cfgW [] ⟨some "r1", none⟩ "c1" lookupNone deliverOK).runner = some "Unknown"
    ∧ notifyRun cfgW [] ⟨some "r1", some []⟩ "c1" lookupNone deliverOK = ⟨[], [], none⟩ :=
  c10_first_player cfgW [] "c1" lookupNone deliverOK "r1"
    (PlayerRec.guest (some "alice")) [PlayerRec.guest (some "bob")]
    (by decide) (by decide) (by decide)

/-- The seen registry only grows across a notify_new_run call. -/
theorem notifyRun_mono (cfg : Config) (seen : List String) (run : Run)
    (gameId : String) (lookup : String → Option String) (deliver : Nat → Delivery)
    (x : String) (hx : x ∈ seen) :
    x ∈ (notifyRun cfg seen run gameId lookup deliver).seen := by
  rcases notifyRun_cases cfg seen run gameId lookup deliver with h | ⟨rid, p, -, -, -, -, -, h⟩
  · rw [h]
    exact hx
  · rw [h]
    dsimp only
    split
    · exact hx
    · exact insertSeen_keeps rid x seen hx

/-- If notify_new_run sent anything, the run id was valid and unseen when
the call started (contrapositive of the two entry guards). -/
theorem notifyRun_sent_unseen (cfg : Config) (seen : List String) (run : Run)
    (gameId : String) (lookup : String → Option String) (deliver : Nat → Delivery)
    (hsent : (notifyRun cfg seen run gameId lookup deliver).sent ≠ []) :
    pyRunId run ∉ seen := by
  rcases notifyRun_cases cfg seen run gameId lookup deliver with h | ⟨rid, p, hid, -, hun, -, -, h⟩
  · rw [h] at hsent
    exact absurd rfl hsent
  · unfold pyRunId
    rw [hid]
    exact hun

/-- Bool-to-Prop bridge for the delivery-log predicate. -/
theorem noEventsFor_iff (log : List (String × String)) (rid : String) :
    noEventsFor log rid = true ↔ ∀ ev ∈ log, ev.1 ≠ rid := by
  unfold noEventsFor
  simp [List.all_eq_true, bne_iff_ne]

/-- Invariant of the inner notify loop: an id seen at entry stays seen and
never gains a delivery event. -/
theorem processRuns_inv (cfg : Config) (gameId : String)
    (lookup : String → Option String) (deliver : String → Nat → Delivery)
    (runs : List Run) (rid : String) :
    ∀ st : CycleState, rid ∈ st.seen → (∀ ev ∈ st.log, ev.1 ≠ rid) →
      rid ∈ (processRuns cfg gameId lookup deliver runs st).seen
      ∧ ∀ ev ∈ (processRuns cfg gameId lookup deliver runs st).log, ev.1 ≠ rid := by
  induction runs with
  | nil =>
    intro st hseen hlog
    exact ⟨hseen, hlog⟩
  | cons r rs ih =>
    intro st hseen hlog
    unfold processRuns
    apply ih
    · exact notifyRun_mono cfg st.seen r gameId lookup (deliver (pyRunId r)) rid hseen
    · intro ev hev
      rcases List.mem_append.mp hev with hev1 | hev2
      · exact hlog ev hev1
      · rcases List.mem_map.mp hev2 with ⟨g, hg, hevg⟩
        have hsent : (notifyRun cfg st.seen r gameId lookup (deliver (pyRunId r))).sent ≠ [] := by
          intro hx
          rw [hx] at hg
          exact List.not_mem_nil g hg
        have hunr := notifyRun_sent_unseen cfg st.seen r gameId lookup
          (deliver (pyRunId r)) hsent
        rw [← hevg]
        dsimp only
        intro hcontra
        rw [hcontra] at hunr
        exact hunr hseen

/-- Invariant of one per-game iteration of the poll loop. -/
theorem processGame_inv (cfg : Config) (lookup : String → Option String)
    (runsFor : String → Option (List Run)) (deliver : String → Nat → Delivery)
    (st : CycleState) (entry : String × String) (rid : String)
    (hseen : rid ∈ st.seen) (hlog : ∀ ev ∈ st.log, ev.1 ≠ rid) :
    rid ∈ (processGame cfg lookup runsFor deliver st entry).seen
    ∧ ∀ ev ∈ (processGame cfg lookup runsFor deliver st entry).log, ev.1 ≠ rid := by
  unfold processGame
  cases runsFor entry.1 with
  | none => exact ⟨hseen, hlog⟩
  | some runs => exact processRuns_inv cfg entry.1 lookup deliver _ rid _ hseen hlog

/-- Invariant of the whole per-cycle fold. -/
theorem foldGames_inv (cfg : Config) (lookup : String → Option String)
    (runsFor : String → Option (List Run)) (deliver : String → Nat → Delivery)
    (entries : List (String × String)) (rid : String) :
    ∀ st : CycleState, rid ∈ st.seen → (∀ ev ∈ st.log, ev.1 ≠ rid) →
      rid ∈ (entries.foldl (processGame cfg lookup runsFor deliver) st).seen
      ∧ ∀ ev ∈ (entries.foldl (processGame cfg lookup runsFor deliver) st).log, ev.1 ≠ rid := by
  induction entries with
  | nil =>
    intro st hseen hlog
    exact ⟨hseen, hlog⟩
  | cons e es ih =>
    intro st hseen hlog
    rw [List.foldl_cons]
    have h1 := processGame_inv cfg lookup runsFor deliver st e rid hseen hlog
    exact ih _ h1.1 h1.2

/-- A run id seen before a cycle is still seen afterwards and receives no
delivery event during the cycle. -/
theorem check_new_runs_inv (cfg : Config) (seen : List String)
    (runsFor : String → Option (List Run)) (lookup : String → Option String)
    (deliver : String → Nat → Delivery) (rid : String) (h : rid ∈ seen) :
    rid ∈ (check_new_runs cfg seen runsFor lookup deliver).seen
    ∧ ∀ ev ∈ (check_new_runs cfg seen runsFor lookup deliver).log, ev.1 ≠ rid := by
  unfold check_new_runs
  exact foldGames_inv cfg lookup runsFor deliver (get_all_monitored_games cfg) rid
    ⟨seen, [], []⟩ h (by intro ev hev; exact absurd hev (List.not_mem_nil ev))

/-- C2 (amended): a run id already present in the seen registry receives
no delivery in any later poll cycle: the cycle filter and the notifier
guard both test the registry and the registry only grows.  The original
claim additionally said at most one notification per destination, which
fails when a destination monitors the same resolved game id under two raw
names (see the counterexample); deliveries are at most once per matching
server-game row. -/
theorem c2_seen_never_delivered (cfg : Config) (seen : List String)
    (os : List Oracle) (rid : String) (h : rid ∈ seen) :
    noEventsFor (runCycles cfg seen os).2 rid = true := by
  rw [noEventsFor_iff]
  induction os generalizing seen with
  | nil =>
    intro ev hev
    exact absurd hev (List.not_mem_nil ev)
  | cons o os ih =>
    intro ev hev
    unfold runCycles at hev
    have hcyc := check_new_runs_inv cfg seen o.runsFor o.lookup o.deliver rid h
    rcases List.mem_append.mp hev with hev1 | hev2
    · exact hcyc.2 ev hev1
    · exact ih _ hcyc.1 ev hev2

/-- A configuration in which guild g1 monitors the same resolved game id
c1 under two different raw names (reachable through the setgames command,
which performs no duplicate check). -/
def cfgDup : Config :=
  ⟨[⟨"g1", "G", some "ch1", none, 60, true⟩],
   [⟨"g1", "celeste", some "c1", none⟩, ⟨"g1", "celestegame", some "c1", none⟩],
   []⟩

/-- C2 counterexample: the servers-monitoring JOIN returns one row per
matching server_games row, so the fresh run r1 is delivered TWICE to the
same destination g1 within a single notify_new_run call, refuting the
at-most-once-per-destination part of the claim. -/
theorem c2_counterexample :
    (notifyRun cfgDup [] runW "c1" lookupNone deliverOK).sent = ["g1", "g1"]
    ∧ (notifyRun cfgDup [] runW "c1" lookupNone deliverOK).sent.count "g1" = 2 := by
  decide

/-- The cycle environment used by the C2 witness: the upstream reports the
already-seen run r0 again and every delivery would succeed. -/
def oracleW : Oracle :=
  ⟨fun _ => some [⟨some "r0", some [PlayerRec.guest (some "bob")]⟩],
   lookupNone,
   fun _ _ => Delivery.success⟩

/-- Witness for the amended C2 at a concrete input: r0 is already seen, so
a cycle in which the upstream resurfaces r0 delivers nothing for it. -/
theorem c2_witness : noEventsFor (runCycles cfgW ["r0"] [oracleW]).2 "r0" = true :=
  c2_seen_never_delivered cfgW ["r0"] [oracleW] "r0" (by decide)

/-- Membership in the DISTINCT helper: an element is kept iff it occurs in
the input and was not already emitted. -/
theorem mem_distinctAux {α : Type} [DecidableEq α] (l : List α) (emitted : List α)
    (x : α) : x ∈ distinctAux l emitted ↔ x ∈ l ∧ x ∉ emitted := by
  induction l generalizing emitted with
  | nil => simp [distinctAux]
  | cons a l ih =>
    unfold distinctAux
    by_cases ha : a ∈ emitted
    · rw [if_pos ha, ih]
      constructor
      · rintro ⟨hx, hne⟩
        exact ⟨List.mem_cons_of_mem a hx, hne⟩
      · rintro ⟨hx, hne⟩
        rcases List.mem_cons.mp hx with rfl | hx2
        · exact absurd ha hne
        · exact ⟨hx2, hne⟩
    · rw [if_neg ha]
      constructor
      · intro hx
        rcases List.mem_cons.mp hx with rfl | hx2
        · exact ⟨List.mem_cons_self _ _, ha⟩
        · have h2 := (ih (a :: emitted)).mp hx2
          exact ⟨List.mem_cons_of_mem a h2.1,
            fun hc => h2.2 (List.mem_cons_of_mem a hc)⟩
      · rintro ⟨hx, hne⟩
        by_cases hxa : x = a
        · subst hxa
          exact List.mem_cons_self _ _
        · rcases List.mem_cons.mp hx with h1 | h2
          · exact absurd h1 hxa
          · refine List.mem_cons_of_mem a ((ih (a :: emitted)).mpr ⟨h2, ?_⟩)
            intro hc
            rcases List.mem_cons.mp hc with h3 | h4
            · exact hxa h3
            · exact hne h4

/-- The DISTINCT helper emits no duplicates. -/
theorem nodup_distinctAux {α : Type} [DecidableEq α] (l : List α) :
    ∀ emitted : List α, (distinctAux l emitted).Nodup := by
  induction l with
  | nil =>
    intro emitted
    simp [distinctAux]
  | cons a l ih =>
    intro emitted
    unfold distinctAux
    by_cases ha : a ∈ emitted
    · rw [if_pos ha]
      exact ih emitted
    · rw [if_neg ha]
      refine List.nodup_cons.mpr ⟨?_, ih (a :: emitted)⟩
      intro hc
      exact ((mem_distinctAux l (a :: emitted) a).mp hc).2 (List.mem_cons_self a emitted)

/-- Characterization of the game ids the poll cycle targets: gid is
targeted iff it is a nonempty resolved id of a server_games row whose
guild is ENABLED; no channel binding is required by the code. -/
theorem mem_targetIds (cfg : Config) (gid : String) :
    gid ∈ (get_all_monitored_games cfg).map Prod.fst
    ↔ gid ≠ "" ∧ ∃ sg ∈ cfg.serverGames, sg.gameId = some gid
        ∧ ∃ s ∈ cfg.servers, s.enabled = true ∧ s.guildId = sg.guildId := by
  constructor
  · intro h
    rcases List.mem_map.mp h with ⟨pr, hpr, hfst⟩
    rcases List.mem_filterMap.mp hpr with ⟨t, ht, hft⟩
    have ht1 : t ∈ (cfg.serverGames.filter (fun sg =>
        decide (sg.guildId ∈ (cfg.servers.filter (fun s => s.enabled)).map
          (fun s => s.guildId)))).map
        (fun sg => (sg.gameName, sg.gameId, verifiedName cfg sg.gameId)) := by
      have := (mem_distinctAux _ [] t).mp ht
      exact this.1
    rcases List.mem_map.mp ht1 with ⟨sg, hsg, hmk⟩
    rcases List.mem_filter.mp hsg with ⟨hsgmem, hsgp⟩
    rcases List.mem_map.mp (of_decide_eq_true hsgp) with ⟨s, hsmem, hsg2⟩
    rcases List.mem_filter.mp hsmem with ⟨hsmem2, hsen⟩
    cases hgid : sg.gameId with
    | none =>
      rw [← hmk, hgid] at hft
      exact absurd hft (by simp)
    | some g0 =>
      rw [← hmk, hgid] at hft
      dsimp only at hft
      by_cases hg0 : g0 = ""
      · rw [if_pos hg0] at hft
        exact absurd hft (by simp)
      · rw [if_neg hg0] at hft
        have hpr2 := Option.some_injective _ hft
        have hg0gid : g0 = gid := by
          rw [← hfst, ← hpr2]
        subst hg0gid
        exact ⟨hg0, sg, hsgmem, hgid, s, hsmem2, hsen, hsg2⟩
  · rintro ⟨hne, sg, hsg, hgid, s, hs, hen, hguild⟩
    apply List.mem_map.mpr
    refine ⟨(gid, pyOr (verifiedName cfg sg.gameId) sg.gameName), ?_, rfl⟩
    apply List.mem_filterMap.mpr
    refine ⟨(sg.gameName, sg.gameId, verifiedName cfg sg.gameId), ?_, ?_⟩
    · apply (mem_distinctAux _ [] _).mpr
      refine ⟨?_, List.not_mem_nil _⟩
      apply List.mem_map.mpr
      refine ⟨sg, ?_, rfl⟩
      apply List.mem_filter.mpr
      refine ⟨hsg, decide_eq_true ?_⟩
      apply List.mem_map.mpr
      refine ⟨s, ?_, hguild⟩
      exact List.mem_filter.mpr ⟨hs, hen⟩
    · rw [hgid]
      dsimp only
      rw [if_neg hne]

/-- The notify loop never issues runs queries. -/
theorem processRuns_fetched (cfg : Config) (gameId : String)
    (lookup : String → Option String) (deliver : String → Nat → Delivery)
    (runs : List Run) : ∀ st : CycleState,
    (processRuns cfg gameId lookup deliver runs st).fetched = st.fetched := by
  induction runs with
  | nil =>
    intro st
    rfl
  | cons r rs ih =>
    intro st
    unfold processRuns
    rw [ih]

/-- Each per-game iteration issues exactly one runs query, for its own
entry, regardless of the response. -/
theorem processGame_fetched (cfg : Config) (lookup : String → Option String)
    (runsFor : String → Option (List Run)) (deliver : String → Nat → Delivery)
    (st : CycleState) (entry : String × String) :
    (processGame cfg lookup runsFor deliver st entry).fetched = st.fetched ++ [entry.1] := by
  unfold processGame
  cases runsFor entry.1 with
  | none => rfl
  | some runs => rw [processRuns_fetched]

/-- The cycle fold queries once per monitored-list entry, in order. -/
theorem foldGames_fetched (cfg : Config) (lookup : String → Option String)
    (runsFor : String → Option (List Run)) (deliver : String → Nat → Delivery)
    (entries : List (String × String)) : ∀ st : CycleState,
    (entries.foldl (processGame cfg lookup runsFor deliver) st).fetched
      = st.fetched ++ entries.map Prod.fst := by
  induction entries with
  | nil =>
    intro st
    simp
  | cons e es ih =>
    intro st
    rw [List.foldl_cons, ih, processGame_fetched]
    simp

/-- C4 (amended): within one cycle each ENTRY of the deduplicated
monitored list (raw name, game id, verified name triples) is queried
exactly once: the queried ids are exactly the entry ids in order, and the
triple list carries no duplicate.  A game id registered under k distinct
raw names contributes k entries and is queried k times (see the
counterexample), so the original exactly-once-per-game-id claim holds only
when each id appears under one raw name. -/
theorem c4_one_query_per_entry (cfg : Config) (seen : List String)
    (runsFor : String → Option (List Run)) (lookup : String → Option String)
    (deliver : String → Nat → Delivery) :
    (check_new_runs cfg seen runsFor lookup deliver).fetched
      = (get_all_monitored_games cfg).map Prod.fst
    ∧ (monitoredTriples cfg).Nodup := by
  constructor
  · unfold check_new_runs
    rw [foldGames_fetched]
    simp
  · unfold monitoredTriples distinctFirst
    apply nodup_distinctAux

/-- A runs oracle with every fetch failing. -/
def noRunsOracle : String → Option (List Run) := fun _ => none

/-- A per-run delivery oracle with every channel lookup failing. -/
def deliverNone : String → Nat → Delivery := fun _ _ => Delivery.noChannel

/-- C4 counterexample: in cfgDup the id c1 is monitored under two raw
names, so one poll cycle queries c1 twice, refuting
exactly-once-per-game-id. -/
theorem c4_counterexample :
    (check_new_runs cfgDup [] noRunsOracle lookupNone deliverNone).fetched = ["c1", "c1"]
    ∧ ((get_all_monitored_games cfgDup).map Prod.fst).count "c1" = 2 := by
  decide

/-- A configuration with an enabled server that has NO bound channel yet
monitors the resolved game c1. -/
def cfgNoCh : Config :=
  ⟨[⟨"g1", "G", none, none, 60, true⟩],
   [⟨"g1", "celeste", some "c1", none⟩],
   []⟩

/-- C3 counterexample: the code polls c1 for the channel-less enabled
server although the spec target set (enabled AND channel bound) is empty. -/
theorem c3_counterexample :
    (get_all_monitored_games cfgNoCh).map Prod.fst = ["c1"]
    ∧ spec_targetGames cfgNoCh = [] := by
  decide

/-- Boolean extensionality via propositional truth. -/
theorem bool_eq_of_iff {a b : Bool} (h : a = true ↔ b = true) : a = b := by
  cases a <;> cases b <;> simp_all

/-- C3 (amended): the polled game-id set is the union over ENABLED
destinations of their nonempty resolved ids, with unresolved (null or
empty) ids excluded, and an empty monitored list makes the cycle a no-op;
contrary to the claim, a bound notification channel is NOT required for a
destination to contribute its games to the target set. -/
theorem c3_enabled_only_and_noop (cfg : Config) (gid : String) (seen : List String)
    (runsFor : String → Option (List Run)) (lookup : String → Option String)
    (deliver : String → Nat → Delivery) :
    decide (gid ∈ (get_all_monitored_games cfg).map Prod.fst) = enabledMonitors cfg gid
    ∧ (get_all_monitored_games cfg = [] →
        check_new_runs cfg seen runsFor lookup deliver = ⟨seen, [], []⟩) := by
  constructor
  · apply bool_eq_of_iff
    rw [decide_eq_true_eq, mem_targetIds]
    simp only [enabledMonitors, Bool.and_eq_true, decide_eq_true_eq, List.any_eq_true,
      beq_iff_eq]
  · intro h
    unfold check_new_runs
    rw [h]
    rfl

/-- A configuration with no servers at all. -/
def cfgEmpty : Config := ⟨[], [], []⟩

/-- Witness for the amended C3 at a concrete input: with no destinations
the target set is empty and the cycle fetches nothing, sends nothing and
leaves the registry unchanged. -/
theorem c3_witness :
    decide ("c1" ∈ (get_all_monitored_games cfgEmpty).map Prod.fst)
      = enabledMonitors cfgEmpty "c1"
    ∧ check_new_runs cfgEmpty [] noRunsOracle lookupNone deliverNone = ⟨[], [], []⟩ :=
  ⟨(c3_enabled_only_and_noop cfgEmpty "c1" [] noRunsOracle lookupNone deliverNone).1,
   (c3_enabled_only_and_noop cfgEmpty "c1" [] noRunsOracle lookupNone deliverNone).2
     (by decide)⟩

/-- A character list is a prefix of itself. -/
theorem isPrefixOf_self (l : List Char) : l.isPrefixOf l = true := by
  induction l with
  | nil => rfl
  | cons a l ih => simp [List.isPrefixOf, ih]

/-- Python containment is reflexive: s in s. -/
theorem strIn_self (s : String) : strIn s s = true := by
  unfold strIn
  rw [List.any_eq_true]
  refine ⟨s.data, ?_, isPrefixOf_self s.data⟩
  rw [List.mem_tails]

/-- In a match dict built from the upstream name, an exact match is in
particular a substring match, because equal lower-cased strings contain
each other. -/
theorem mkMatch_exact_imp_sub (q : String) (g : GameRec)
    (h : (mkMatch q g).exactMatch = true) : (mkMatch q g).subMatch = true := by
  unfold mkMatch at h ⊢
  dsimp only at h ⊢
  have heq := of_decide_eq_true h
  rw [heq]
  exact strIn_self (pyLowerS q)

/-- The head of a filtered list is the first element satisfying the
predicate. -/
theorem filter_head_eq_find (p : MatchRec → Bool) (l : List MatchRec) :
    (l.filter p).head? = l.find? p := by
  induction l with
  | nil => rfl
  | cons a l ih =>
    cases hp : p a
    · simp [List.filter_cons, List.find?_cons, hp, ih]
    · simp [List.filter_cons, List.find?_cons, hp]

/-- Two predicates agreeing on the members find the same element. -/
theorem find_congr (p q : MatchRec → Bool) (l : List MatchRec)
    (h : ∀ a ∈ l, p a = q a) : l.find? p = l.find? q := by
  induction l with
  | nil => rfl
  | cons a l ih =>
    have ha := h a (List.mem_cons_self a l)
    cases hq : q a
    · rw [List.find?_cons_of_neg, List.find?_cons_of_neg]
      · exact ih (fun x hx => h x (List.mem_cons_of_mem a hx))
      · rw [hq]
        simp
      · rw [ha, hq]
        simp
    · rw [List.find?_cons_of_pos, List.find?_cons_of_pos]
      · exact hq
      · rw [ha]
        exact hq

/-- When every element satisfies the predicate, find returns the head. -/
theorem find_all_true (p : MatchRec → Bool) (l : List MatchRec)
    (h : ∀ a ∈ l, p a = true) : l.find? p = l.head? := by
  cases l with
  | nil => rfl
  | cons a l =>
    rw [List.find?_cons_of_pos]
    · rfl
    · exact h a (List.mem_cons_self a l)

/-- A nonzero truncation does not change the head. -/
theorem head_take (l : List MatchRec) (limit : Nat) (h : 1 ≤ limit) :
    (l.take limit).head? = l.head? := by
  cases limit with
  | zero => omega
  | succ n =>
    cases l with
    | nil => rfl
    | cons a l => rfl

/-- Head of the Python stable sort: when exact implies substring on every
element (as in match dicts built from names), the first element of the
sorted list is the first exact match if one exists, else the first
substring match, else the original first element. -/
theorem pySortMatches_head (l : List MatchRec)
    (H : ∀ m ∈ l, m.exactMatch = true → m.subMatch = true) :
    (pySortMatches l).head? =
      ((l.find? (fun m => m.exactMatch)).orElse
        (fun _ => l.find? (fun m => m.subMatch))).orElse
        (fun _ => l.head?) := by
  have hB : l.filter (fun m => m.exactMatch && !m.subMatch) = [] := by
    rw [List.filter_eq_nil_iff]
    intro m hm hc
    rw [Bool.and_eq_true] at hc
    have hs := H m hm hc.1
    rw [hs] at hc
    simp at hc
  have hA : l.filter (fun m => m.exactMatch && m.subMatch)
      = l.filter (fun m => m.exactMatch) := by
    apply List.filter_congr
    intro m hm
    cases he : m.exactMatch
    · rfl
    · rw [H m hm he]
      rfl
  unfold pySortMatches
  rw [hA, hB, List.append_nil, List.head?_append, List.head?_append,
    filter_head_eq_find, filter_head_eq_find, filter_head_eq_find]
  cases hfe : l.find? (fun m => m.exactMatch) with
  | some m => rfl
  | none =>
    have hallE : ∀ m ∈ l, m.exactMatch = false := by
      intro m hm
      have := List.find?_eq_none.mp hfe m hm
      cases hx : m.exactMatch
      · rfl
      · exact absurd hx this
    have hCs : l.find? (fun m => !m.exactMatch && m.subMatch)
        = l.find? (fun m => m.subMatch) := by
      apply find_congr
      intro m hm
      rw [hallE m hm]
      rfl
    rw [hCs]
    cases hfs : l.find? (fun m => m.subMatch) with
    | some m2 => rfl
    | none =>
      have hallS : ∀ m ∈ l, m.subMatch = false := by
        intro m hm
        have := List.find?_eq_none.mp hfs m hm
        cases hx : m.subMatch
        · rfl
        · exact absurd hx this
      have hD : l.find? (fun m => !m.exactMatch && !m.subMatch) = l.head? := by
        apply find_all_true
        intro m hm
        rw [hallE m hm, hallS m hm]
        rfl
      rw [hD]
      rfl

/-- C6: with a cold cache, resolution from a fixed upstream result list
selects the first exact (case-insensitive full-string) match if any, else
the first substring (case-insensitive containment) match, else the first
entry, and nothing when the list is empty; the addgames command then picks
exactly this head element. -/
theorem c6_selection_policy (name : String) (rs : List GameRec)
    (upstream : String → Option (List GameRec)) (limit : Nat)
    (hup : upstream name = some rs) (hl : 1 ≤ limit) :
    (search_games upstream [] name limit).results.head?
      = (((rs.map (mkMatch name)).find? (fun m => m.exactMatch)).orElse
          (fun _ => (rs.map (mkMatch name)).find? (fun m => m.subMatch))).orElse
          (fun _ => (rs.map (mkMatch name)).head?) := by
  unfold search_games
  dsimp only
  have h0 : cacheLookup ([] : Cache) (pyLowerS name) = none := rfl
  rw [h0]
  dsimp only
  unfold searchNetwork
  rw [hup]
  dsimp only
  rw [head_take _ _ hl]
  apply pySortMatches_head
  intro m hm
  rcases List.mem_map.mp hm with ⟨g, hg, hmg⟩
  rw [← hmg]
  exact mkMatch_exact_imp_sub name g

/-- The upstream response used by the C5 and C6 concrete inputs: searching
x returns first a substring match gA and then the exact match gB. -/
def upstream5 : String → Option (List GameRec) :=
  fun n => if n = "x" then some [⟨"gA", "xy"⟩, ⟨"gB", "x"⟩] else none

/-- Witness for C6 at a concrete input: on the cold-cache call the head of
the returned list obeys the exact-over-substring-over-first policy. -/
theorem c6_witness :
    (search_games upstream5 [] "x" 1).results.head?
      = ((([(⟨"gA", "xy"⟩ : GameRec), ⟨"gB", "x"⟩].map (mkMatch "x")).find?
            (fun m => m.exactMatch)).orElse
          (fun _ => ([(⟨"gA", "xy"⟩ : GameRec), ⟨"gB", "x"⟩].map (mkMatch "x")).find?
            (fun m => m.subMatch))).orElse
          (fun _ => ([(⟨"gA", "xy"⟩ : GameRec), ⟨"gB", "x"⟩].map (mkMatch "x")).head?) :=
  c6_selection_policy "x" [⟨"gA", "xy"⟩, ⟨"gB", "x"⟩] upstream5 1 rfl (by decide)

/-- Looking up the key just written returns the written matches. -/
theorem cacheLookup_insert (c : Cache) (k : String) (v : List MatchRec) :
    cacheLookup (cacheInsert c k v) k = some v := by
  unfold cacheLookup cacheInsert
  rw [List.find?_cons_of_pos]
  · rfl
  · exact beq_self_eq_true k

/-- Re-writing the same entry leaves the cache unchanged. -/
theorem cacheInsert_idem (c : Cache) (k : String) (v : List MatchRec) :
    cacheInsert (cacheInsert c k v) k v = cacheInsert c k v := by
  unfold cacheInsert
  rw [List.filter_cons]
  simp [List.filter_filter]

/-- The cache after one search_games call is either untouched or the
freshly written unsorted match list for the lower-cased query. -/
theorem search_games_cache_spec (upstream : String → Option (List GameRec))
    (cache : Cache) (name : String) (limit : Nat) :
    (search_games upstream cache name limit).cache = cache
    ∨ ∃ games, upstream name = some games ∧
        (search_games upstream cache name limit).cache
          = cacheInsert cache (pyLowerS name) (games.map (mkMatch name)) := by
  unfold search_games searchNetwork
  dsimp only
  cases hlk : cacheLookup cache (pyLowerS name) with
  | none =>
    dsimp only
    cases hup : upstream name with
    | none => left; rfl
    | some games =>
      right
      exact ⟨games, rfl, rfl⟩
  | some l =>
    dsimp only
    by_cases hle : l.isEmpty
    · rw [if_pos hle]
      cases hup : upstream name with
      | none => left; rfl
      | some games =>
        right
        exact ⟨games, rfl, rfl⟩
    · rw [if_neg hle]
      left
      rfl

/-- After one search_games call the cache is a fixpoint for this query. -/
theorem search_cache_fix (upstream : String → Option (List GameRec)) (cache : Cache)
    (name : String) (limit : Nat) :
    (search_games upstream (search_games upstream cache name limit).cache name limit).cache
      = (search_games upstream cache name limit).cache := by
  rcases search_games_cache_spec upstream cache name limit with h | ⟨games, hup, h⟩
  · rw [h]
    exact h
  · rw [h]
    unfold search_games
    dsimp only
    rw [cacheLookup_insert]
    dsimp only
    by_cases hle : (games.map (mkMatch name)).isEmpty
    · rw [if_pos hle]
      unfold searchNetwork
      rw [hup]
      dsimp only
      exact cacheInsert_idem cache (pyLowerS name) (games.map (mkMatch name))
    · rw [if_neg hle]

/-- C5 (amended): with a fixed upstream response, every invocation after
the first one returns the same selection and leaves the cache unchanged;
the first (network-answered) invocation may differ from the later
(cache-answered) ones because the sorted list is returned but the UNSORTED
match list is cached (see the counterexample). -/
theorem c5_stable_after_first (upstream : String → Option (List GameRec))
    (cache : Cache) (name : String) (limit : Nat) :
    (search_games upstream (search_games upstream cache name limit).cache name limit).cache
      = (search_games upstream cache name limit).cache
    ∧ search_games upstream
        (search_games upstream (search_games upstream cache name limit).cache name limit).cache
        name limit
      = search_games upstream (search_games upstream cache name limit).cache name limit := by
  refine ⟨search_cache_fix upstream cache name limit, ?_⟩
  rw [search_cache_fix upstream cache name limit]

/-- C5 counterexample: with the fixed response of upstream5, the first
(network) resolve of x selects the exact match gB, but the second resolve,
answered from the warmed cache, selects gA: the cache stores the unsorted
list, so the cached and the network answers differ. -/
theorem c5_counterexample :
    (search_games upstream5 [] "x" 1).results.map MatchRec.id = ["gB"]
    ∧ (search_games upstream5 (search_games upstream5 [] "x" 1).cache "x" 1).results.map
        MatchRec.id = ["gA"] := by
  decide

/-- C7 (amended): when the cache holds a NONEMPTY match list for the
lower-cased name, search_games answers entirely from the cache: zero
upstream requests, the cache untouched, and the cached list truncated to
the limit.  A cached EMPTY list is falsy in Python and is treated as a
miss, so it does trigger another upstream request (see the
counterexample). -/
theorem c7_warm_cache_no_fetch (upstream : String → Option (List GameRec))
    (cache : Cache) (name : String) (limit : Nat) (l : List MatchRec)
    (hcache : cacheLookup cache (pyLowerS name) = some l) (hne : l ≠ []) :
    search_games upstream cache name limit = ⟨l.take limit, cache, 0⟩ := by
  have hle : l.isEmpty = false := by
    cases l with
    | nil => exact absurd rfl hne
    | cons a t => rfl
  unfold search_games
  dsimp only
  rw [hcache]
  dsimp only
  rw [hle]
  rfl

/-- A cache that stores an EMPTY result list for the term x. -/
def cache7 : Cache := [("x", [])]

/-- The upstream response used by the C7 counterexample. -/
def upstream7 : String → Option (List GameRec) :=
  fun n => if n = "x" then some [⟨"gA", "xa"⟩] else none

/-- C7 counterexample: the search results for x are already stored in the
cache (as the empty list), yet the next resolve of x issues one more
upstream search request instead of answering from the cache. -/
theorem c7_counterexample :
    cacheLookup cache7 (pyLowerS "x") = some []
    ∧ (search_games upstream7 cache7 "x" 5).fetches = 1 := by
  decide

/-- A warmed nonempty cache entry for the C7 witness. -/
def matchW : MatchRec := ⟨"gA", "Alpha", true, true⟩

/-- The warmed cache of the C7 witness. -/
def cacheWarm : Cache := [("x", [matchW])]

/-- Witness for the amended C7 at a concrete input: a nonempty cached
entry is served with zero upstream requests. -/
theorem c7_witness :
    search_games upstream7 cacheWarm "x" 5 = ⟨[matchW].take 5, cacheWarm, 0⟩ :=
  c7_warm_cache_no_fetch upstream7 cacheWarm "x" 5 [matchW] (by decide) (by decide)
